import Mathlib

/-!
Verification of the back-it-onchain settlement core against its
natural-language specification.

The definitions below are a shallow embedding of the TypeScript source:

* packages/contracts-stellar/outcome_manager/integration.ts
  (buildOutcomeMessage, verifyOutcomeSignature, calculatePayout)
* packages/backend/src/stellar-indexer/services/stellar-indexer.service.ts
  (decodeScVal, storeEvent, fetchContractEvents, fetchAndProcessEvents,
   stop, the polling tick and the retry loop)

JavaScript BigInt arithmetic is modelled on Int (truncating division is
Int.tdiv; division by 0n raises a RangeError and is modelled as none),
byte buffers are lists of Nat byte values, thrown exceptions are Option
none at the point where the source's try/catch observes them, and the
asynchronous RPC surface is an explicit environment record mapping each
call the service performs to its (possibly thrown) result.
-/

/-! ## Payout calculator (integration.ts, calculatePayout) -/

/--
Embedding of integration.ts calculatePayout.  All five numeric arguments
are JS BigInt, hence Int.  BigInt division truncates toward zero
(Int.tdiv) and raises a RangeError when the divisor is 0n, which the
source does not guard against; a raised division is modelled as none.
-/
def calculatePayout (userStake : Int) (userSide outcome : Bool)
    (longTokens shortTokens : Int) : Option Int :=
  if userSide != outcome then
    some 0
  else
    let winningTokens := if outcome then longTokens else shortTokens
    let losingTokens := if outcome then shortTokens else longTokens
    if winningTokens = 0 then
      none
    else
      some (userStake + Int.tdiv (userStake * losingTokens) winningTokens)

/-! ## Canonical outcome message (integration.ts, buildOutcomeMessage) -/

/--
DataView.setBigInt64 with littleEndian = false: the argument is wrapped
by ToBigInt64 (reduction modulo 2 ^ 64) and the resulting 64-bit pattern
is stored as 8 big-endian bytes.  The u64 and u128 fields of the message
are non-negative, so the wrapped pattern of a value below 2 ^ 64 is the
value itself.
-/
def toUint64BE (n : Nat) : List Nat :=
  let m := n % 2 ^ 64
  [m / 2 ^ 56 % 256, m / 2 ^ 48 % 256, m / 2 ^ 40 % 256, m / 2 ^ 32 % 256,
   m / 2 ^ 24 % 256, m / 2 ^ 16 % 256, m / 2 ^ 8 % 256, m % 256]

/--
Embedding of integration.ts buildOutcomeMessage.  The source fills a
33-byte buffer at offsets 0, 8, 9, 17 and 25; the writes are contiguous
and disjoint, so the buffer is the concatenation of the five fields.
On the non-negative price, the source's finalPrice >> 64n is division by
2 ^ 64 and finalPrice & ((1n << 64n) - 1n) is reduction modulo 2 ^ 64.
-/
def buildOutcomeMessage (callId : Nat) (outcome : Bool)
    (finalPrice : Nat) (timestamp : Nat) : List Nat :=
  toUint64BE callId
    ++ [if outcome then 1 else 0]
    ++ toUint64BE (finalPrice / 2 ^ 64)
    ++ toUint64BE (finalPrice % 2 ^ 64)
    ++ toUint64BE timestamp

/-- Big-endian byte lists decode by Horner evaluation in base 256. -/
def beValue (bs : List Nat) : Nat :=
  bs.foldl (fun acc b => acc * 256 + b) 0

/--
The spec's reading of the canonical message, stated over a byte list:
exactly 33 bytes; the big-endian u64 call id at offset 0; the outcome
byte at offset 8; the big-endian u128 final price as upper-64 then
lower-64 words at offsets 9-24; the big-endian u64 timestamp at offset
25; and each field decodes back to the original value.
-/
def OutcomeMessageLayout (callId : Nat) (outcome : Bool)
    (finalPrice timestamp : Nat) (msg : List Nat) : Prop :=
  msg.length = 33 ∧
  msg.take 8 = toUint64BE callId ∧
  beValue (msg.take 8) = callId ∧
  msg[8]? = some (if outcome then 1 else 0) ∧
  (msg.drop 9).take 8 = toUint64BE (finalPrice / 2 ^ 64) ∧
  (msg.drop 17).take 8 = toUint64BE (finalPrice % 2 ^ 64) ∧
  beValue ((msg.drop 9).take 8) * 2 ^ 64 + beValue ((msg.drop 17).take 8)
    = finalPrice ∧
  msg.drop 25 = toUint64BE timestamp ∧
  beValue (msg.drop 25) = timestamp

/-! ## Signature verification (integration.ts, verifyOutcomeSignature) -/

/-- Outcome of a JavaScript call: a returned value or a thrown exception. -/
inductive JsResult (α : Type) where
  | ok (value : α)
  | thrown
deriving DecidableEq, Repr

/--
Modelled from the spec: the external libsodium detached-signature check
invoked by integration.ts (the library is a dependency, not repository
code).  Per the spec, a key or signature that is not exactly 32 / 64
bytes respectively is a failure (the library throws on malformed
inputs); on well-formed inputs the call returns the validity of the
detached signature over the message under the key, abstracted here as
the predicate ed25519Valid.
-/
def sodiumVerifyDetached
    (ed25519Valid : List Nat → List Nat → List Nat → Bool)
    (message signature publicKey : List Nat) : JsResult Bool :=
  if signature.length = 64 ∧ publicKey.length = 32 then
    .ok (ed25519Valid message signature publicKey)
  else
    .thrown

/--
Embedding of integration.ts verifyOutcomeSignature: the libsodium call
runs inside try/catch, any thrown exception yields the boolean false,
and a returned boolean is passed through.
-/
def verifyOutcomeSignature
    (ed25519Valid : List Nat → List Nat → List Nat → Bool)
    (message signature publicKey : List Nat) : Bool :=
  match sodiumVerifyDetached ed25519Valid message signature publicKey with
  | .ok b => b
  | .thrown => false

/-! ## Soroban tagged-value decoder (stellar-indexer.service.ts) -/

/--
ScVal tags discriminated by scVal.switch() in decodeScVal.  The
supported tags carry the payload the source reads; every remaining tag
of the XDR union (128-bit integers, plain strings, voids, errors,
256-bit integers, ledger keys, ...) is collapsed into explicit u128,
i128 and string constructors plus a catch-all other constructor, all of
which reach the source's default branch.
-/
inductive ScVal where
  | u32 (n : Nat)
  | u64 (n : Nat)
  | i32 (n : Int)
  | i64 (n : Int)
  | symbol (s : String)
  | bytes (bs : List Nat)
  | addressAccount (ed25519Key : List Nat)
  | addressContract (idBytes : List Nat)
  | vec (elems : List ScVal)
  | map (entries : List (ScVal × ScVal))
  | boolTag (b : Bool)
  | u128 (hi lo : Nat)
  | i128 (hi lo : Int)
  | string (s : String)
  | other (tag : Nat)

/-- The JS value decodeScVal produces (a string, boolean, array, plain
object, or null). -/
inductive DecodedVal where
  | null
  | str (s : String)
  | boolean (b : Bool)
  | arr (xs : List DecodedVal)
  | obj (fields : List (String × DecodedVal))

/-- Lower-case hex digit of a value below 16, as Buffer.toString('hex')
renders it. -/
def hexDigit (n : Nat) : Char :=
  if n < 10 then Char.ofNat (48 + n) else Char.ofNat (87 + n)

/-- Two-digit lower-case hex rendering of one byte. -/
def byteHex (b : Nat) : String :=
  String.mk [hexDigit (b / 16 % 16), hexDigit (b % 16)]

/-- Buffer.toString('hex') over a byte list. -/
def hexOfBytes (bs : List Nat) : String :=
  String.join (bs.map byteHex)

/--
Stand-in for the external Stellar SDK's
StrKey.encodeEd25519PublicKey (a base32 rendering with version byte and
checksum, performed by a dependency, not repository code).  No claim
depends on the concrete character-level encoding, only on an address of
account kind being rendered through this encoder; the tag plus hex body
keeps the stand-in injective and executable.
-/
def strKeyAccount (ed25519Key : List Nat) : String :=
  "G:" ++ hexOfBytes ed25519Key

mutual

/--
String coercion JavaScript applies to a decoded value used as an object
property key in the decoded map case (String(x) for the primitive
shapes, Array.prototype.toString for arrays, the default object tag for
plain objects; a null array element renders as the empty string).
-/
def jsKeyString : DecodedVal → String
  | .null => "null"
  | .str s => s
  | .boolean b => if b then "true" else "false"
  | .arr xs => jsKeyStringList xs
  | .obj _ => "[object Object]"

/-- Comma join of array elements under JS string coercion. -/
def jsKeyStringList : List DecodedVal → String
  | [] => ""
  | [x] => jsKeyStringElem x
  | x :: xs => jsKeyStringElem x ++ "," ++ jsKeyStringList xs

/-- One array element under JS string coercion (null renders empty). -/
def jsKeyStringElem : DecodedVal → String
  | .null => ""
  | x => jsKeyString x

end

mutual

/--
Embedding of stellar-indexer.service.ts decodeScVal: a switch on the
value's type tag.  Unsigned and signed 32/64-bit integers render as
decimal strings, symbols as their UTF-8 string, byte arrays as hex
strings, addresses through the account or contract renderer by address
kind, vectors and maps recursively, booleans as booleans, and every
other tag falls to the default branch returning null.
-/
def decodeScVal : ScVal → DecodedVal
  | .u32 n => .str (toString n)
  | .u64 n => .str (toString n)
  | .i32 n => .str (toString n)
  | .i64 n => .str (toString n)
  | .symbol s => .str s
  | .bytes bs => .str (hexOfBytes bs)
  | .addressAccount key => .str (strKeyAccount key)
  | .addressContract cid => .str (hexOfBytes cid)
  | .vec elems => .arr (decodeScValList elems)
  | .map entries => .obj (decodeScValEntries entries)
  | .boolTag b => .boolean b
  | .u128 _ _ => .null
  | .i128 _ _ => .null
  | .string _ => .null
  | .other _ => .null

/-- scVal.vec().map((v) => this.decodeScVal(v)). -/
def decodeScValList : List ScVal → List DecodedVal
  | [] => []
  | v :: vs => decodeScVal v :: decodeScValList vs

/-- The decoded-map loop: each entry key is decoded then coerced to a JS
property key, each value is decoded. -/
def decodeScValEntries : List (ScVal × ScVal) → List (String × DecodedVal)
  | [] => []
  | (k, v) :: es =>
    (jsKeyString (decodeScVal k), decodeScVal v) :: decodeScValEntries es

end

/-- The tags handled by a non-default case of the decodeScVal switch. -/
def supportedScTag : ScVal → Bool
  | .u32 _ => true
  | .u64 _ => true
  | .i32 _ => true
  | .i64 _ => true
  | .symbol _ => true
  | .bytes _ => true
  | .addressAccount _ => true
  | .addressContract _ => true
  | .vec _ => true
  | .map _ => true
  | .boolTag _ => true
  | .u128 _ _ => false
  | .i128 _ _ => false
  | .string _ => false
  | .other _ => false

/-! ## Event store (stellar-indexer.service.ts, storeEvent) -/

/-- The chain discriminator of the Call entity. -/
inductive ChainType where
  | BASE
  | STELLAR
deriving DecidableEq, Repr

/-- The parsed Soroban event shape produced by parseEvent. -/
structure ParsedSorobanEvent where
  type : String
  contractId : String
  ledger : Nat
  txHash : String
  sequence : Nat
  data : List (String × DecodedVal)

/-- The Call row storeEvent persists (the columns it sets). -/
structure StoredCall where
  chain : ChainType
  txHash : String
  stellarContractId : String
  contractId : String
  eventType : String
  ledgerHeight : Nat
  eventSequence : Nat
  eventData : List (String × DecodedVal)

/-- The findOne filter of storeEvent: chain = STELLAR, same transaction
hash, same event sequence. -/
def keyMatches (txHash : String) (seq : Nat) (c : StoredCall) : Bool :=
  c.chain == ChainType.STELLAR && c.txHash == txHash
    && c.eventSequence == seq

/-- Whether a row with the dedup key already exists in the store. -/
def hasKey (db : List StoredCall) (txHash : String) (seq : Nat) : Bool :=
  db.any (keyMatches txHash seq)

/-- How many rows carry the dedup key. -/
def countKey (db : List StoredCall) (txHash : String) (seq : Nat) : Nat :=
  db.countP (keyMatches txHash seq)

/-- The row callRepository.create builds from a parsed event. -/
def mkCall (e : ParsedSorobanEvent) : StoredCall :=
  { chain := ChainType.STELLAR
    txHash := e.txHash
    stellarContractId := e.contractId
    contractId := e.contractId
    eventType := e.type
    ledgerHeight := e.ledger
    eventSequence := e.sequence
    eventData := e.data }

/--
Embedding of stellar-indexer.service.ts storeEvent in the case where
the repository operations themselves succeed: if a row with the dedup
key (STELLAR, txHash, sequence) exists the write is skipped, otherwise
the created row is appended.
-/
def storeEvent (db : List StoredCall) (e : ParsedSorobanEvent) :
    List StoredCall :=
  if hasKey db e.txHash e.sequence then db else db ++ [mkCall e]

/--
storeEvent with a possibly failing repository save: a save error is
rethrown by storeEvent (modelled as none); the duplicate-key branch
returns before saving and cannot fail.
-/
def storeEventSave (saveOk : ParsedSorobanEvent → Bool)
    (db : List StoredCall) (e : ParsedSorobanEvent) :
    Option (List StoredCall) :=
  if hasKey db e.txHash e.sequence then some db
  else if saveOk e then some (db ++ [mkCall e]) else none

/-! ## The polling cycle (stellar-indexer.service.ts) -/

/--
The RPC and repository surface fetchAndProcessEvents touches, as an
explicit environment: the result of getLatestLedger on each successive
attempt of one cycle (none = the call throws), the result of getEvents
for a contract id and start ledger (none = the call throws), the result
of parseEvent on a raw event (none = it throws), and whether the
repository save of a parsed event succeeds.  Raw events are opaque
handles (Nat).
-/
structure RpcEnv where
  heads : Nat → Option Nat
  events : String → Nat → Option (List Nat)
  parse : Nat → Option ParsedSorobanEvent
  saveOk : ParsedSorobanEvent → Bool

/--
The loop body of fetchContractEvents over one raw event: parseEvent
then storeEvent inside a try/catch, so a parse or store error leaves
the store as it was and the loop continues.
-/
def processOneEvent (env : RpcEnv) (db : List StoredCall) (raw : Nat) :
    List StoredCall :=
  match env.parse raw with
  | none => db
  | some pe =>
    match storeEventSave env.saveOk db pe with
    | none => db
    | some db2 => db2

/--
Embedding of stellar-indexer.service.ts fetchContractEvents: getEvents
for the contract (the source passes only startLedger to the RPC call;
endLedger is accepted but unused), then the per-event loop; the
whole body sits in a try/catch that turns any getEvents failure into a
plain return, so this function never throws.
-/
def fetchContractEvents (env : RpcEnv) (contractId : String)
    (startLedger endLedger : Nat) (db : List StoredCall) :
    List StoredCall :=
  match env.events contractId startLedger with
  | none => db
  | some raws => raws.foldl (processOneEvent env) db

/-- The source's StellarIndexerConfig after initialize() resolved the
optional fields. -/
structure StellarIndexerConfig where
  rpcUrl : String
  contractIds : List String
  pollIntervalMs : Nat
  maxRetries : Nat
  retryDelayMs : Nat

/-- The caller-supplied configuration (the optional fields of the
source's StellarIndexerConfig interface). -/
structure ConfigInput where
  rpcUrl : String
  contractIds : List String
  pollIntervalMs : Option Nat := none
  startLedger : Option Nat := none
  maxRetries : Option Nat := none
  retryDelayMs : Option Nat := none

/-- initialize(): spread of the defaults under the supplied config -
absent fields get pollIntervalMs 12000, maxRetries 3, retryDelayMs
5000. -/
def initializeConfig (c : ConfigInput) : StellarIndexerConfig :=
  { rpcUrl := c.rpcUrl
    contractIds := c.contractIds
    pollIntervalMs := c.pollIntervalMs.getD 12000
    maxRetries := c.maxRetries.getD 3
    retryDelayMs := c.retryDelayMs.getD 5000 }

/-- initialize(): this.currentLedger = this.config.startLedger || 1
(JS falsy: an absent or zero startLedger yields 1). -/
def initialCursor (c : ConfigInput) : Nat :=
  match c.startLedger with
  | some n => if n = 0 then 1 else n
  | none => 1

/-- The mutable service state the cycle touches: the ledger cursor, the
persisted rows, and the isRunning flag. -/
structure IndexerState where
  currentLedger : Nat
  db : List StoredCall
  isRunning : Bool

/-- The observable outcome of one call of fetchAndProcessEvents: the
resulting state, the number of getLatestLedger attempts performed, and
the delays awaited (ms each, one before each retry). -/
structure CycleResult where
  state : IndexerState
  attempts : Nat
  delays : List Nat

/--
Embedding of stellar-indexer.service.ts fetchAndProcessEvents.  On a
successful getLatestLedger: if the cursor is past the head the cycle
returns at once; otherwise every configured contract is processed (each
fetchContractEvents call catches its own errors) and the cursor
advances to head + 1 unconditionally.  On a thrown getLatestLedger: if
retryCount < maxRetries the service awaits retryDelayMs and recurses
with retryCount + 1, else it logs and abandons the cycle.  The function
never consults isRunning.
-/
def fetchAndProcessEvents (cfg : StellarIndexerConfig) (env : RpcEnv)
    (s : IndexerState) (retryCount : Nat) : CycleResult :=
  match env.heads retryCount with
  | some head =>
    if s.currentLedger > head then
      { state := s, attempts := retryCount + 1, delays := [] }
    else
      { state :=
          { s with
            currentLedger := head + 1
            db := cfg.contractIds.foldl
              (fun db cid =>
                fetchContractEvents env cid s.currentLedger head db)
              s.db }
        attempts := retryCount + 1
        delays := [] }
  | none =>
    if h : retryCount < cfg.maxRetries then
      let r := fetchAndProcessEvents cfg env s (retryCount + 1)
      { r with delays := cfg.retryDelayMs :: r.delays }
    else
      { state := s, attempts := retryCount + 1, delays := [] }
termination_by cfg.maxRetries - retryCount
decreasing_by omega

/-- Embedding of stop(): an early return when already stopped,
otherwise the isRunning flag is cleared (and the recurring timer
cancelled). -/
def stop (s : IndexerState) : IndexerState :=
  if s.isRunning then { s with isRunning := false } else s

/-- The setInterval callback of pollForEvents: it returns immediately
when isRunning is false, otherwise it runs one cycle (whose own errors
it catches). -/
def pollTick (cfg : StellarIndexerConfig) (env : RpcEnv)
    (s : IndexerState) : IndexerState :=
  if s.isRunning then (fetchAndProcessEvents cfg env s 0).state else s

/-! ## Concrete example fixtures used by counterexamples and
witnesses. -/

/-- A resolved configuration with the source's defaults and one
monitored contract. -/
def exCfg : StellarIndexerConfig :=
  { rpcUrl := "http://rpc"
    contractIds := ["C"]
    pollIntervalMs := 12000
    maxRetries := 3
    retryDelayMs := 5000 }

/-- A sample parsed event. -/
def exEvent : ParsedSorobanEvent :=
  { type := "CallCreated"
    contractId := "C"
    ledger := 10
    txHash := "tx1"
    sequence := 0
    data := [] }

/-- Environment: the head fetch succeeds at ledger 10 but getEvents for
the contract throws. -/
def exEnvContractFail : RpcEnv :=
  { heads := fun _ => some 10
    events := fun _ _ => none
    parse := fun _ => some exEvent
    saveOk := fun _ => true }

/-- Environment: head fetch succeeds at ledger 10, one raw event that
parses and stores successfully. -/
def exEnvOk : RpcEnv :=
  { heads := fun _ => some 10
    events := fun _ _ => some [0]
    parse := fun _ => some exEvent
    saveOk := fun _ => true }

/-- Environment: every head fetch throws. -/
def exEnvAllFail : RpcEnv :=
  { heads := fun _ => none
    events := fun _ _ => none
    parse := fun _ => none
    saveOk := fun _ => false }

/-- Environment: the head fetch throws on attempts 0 and 1 and succeeds
at ledger 10 on attempt 2; one raw event parses and stores. -/
def exEnvThirdTry : RpcEnv :=
  { heads := fun k => if k < 2 then none else some 10
    parse := fun _ => some exEvent
    events := fun _ _ => some [0]
    saveOk := fun _ => true }

/-- Environment: head at 10, a batch of three raw events of which the
middle one fails to decode. -/
def exEnvBadMiddle : RpcEnv :=
  { heads := fun _ => some 10
    events := fun _ _ => some [0, 1, 2]
    parse := fun r => if r = 1 then none else some exEvent
    saveOk := fun _ => true }

/-- Environment: one raw event that decodes but whose repository save
throws. -/
def exEnvSaveFail : RpcEnv :=
  { heads := fun _ => some 10
    events := fun _ _ => some [0]
    parse := fun _ => some exEvent
    saveOk := fun _ => false }

/-! # Theorems -/

/-! ## Message layout -/

/-- An 8-byte big-endian block decodes back to the written u64 value. -/
theorem beValue_toUint64BE (n : Nat) (h : n < 2 ^ 64) :
    beValue (toUint64BE n) = n := by
  have hm : n % 2 ^ 64 = n := Nat.mod_eq_of_lt h
  simp only [beValue, toUint64BE, List.foldl, hm]
  omega

/--
C2: for u64-range call id and timestamp and u128-range final price,
buildOutcomeMessage returns exactly 33 bytes laid out big-endian as the
spec's table states, the output is a function of the four fields alone,
and the spec's concrete example yields the stated 33 bytes.
-/
theorem buildOutcomeMessage_spec (callId finalPrice timestamp : Nat)
    (outcome : Bool) (hc : callId < 2 ^ 64) (hp : finalPrice < 2 ^ 128)
    (ht : timestamp < 2 ^ 64) :
    OutcomeMessageLayout callId outcome finalPrice timestamp
      (buildOutcomeMessage callId outcome finalPrice timestamp) ∧
    buildOutcomeMessage 1 true 105 1000001 =
      [0, 0, 0, 0, 0, 0, 0, 1,
       1,
       0, 0, 0, 0, 0, 0, 0, 0,
       0, 0, 0, 0, 0, 0, 0, 105,
       0, 0, 0, 0, 0, 15, 66, 65] := by
  have hdiv : finalPrice / 2 ^ 64 < 2 ^ 64 := by
    apply Nat.div_lt_of_lt_mul
    calc finalPrice < 2 ^ 128 := hp
    _ = 2 ^ 64 * 2 ^ 64 := by norm_num
  have hmod : finalPrice % 2 ^ 64 < 2 ^ 64 := Nat.mod_lt _ (by norm_num)
  have htake : (buildOutcomeMessage callId outcome finalPrice timestamp).take 8
      = toUint64BE callId := rfl
  have hup : ((buildOutcomeMessage callId outcome finalPrice timestamp).drop 9).take 8
      = toUint64BE (finalPrice / 2 ^ 64) := rfl
  have hlo : ((buildOutcomeMessage callId outcome finalPrice timestamp).drop 17).take 8
      = toUint64BE (finalPrice % 2 ^ 64) := rfl
  have hts : (buildOutcomeMessage callId outcome finalPrice timestamp).drop 25
      = toUint64BE timestamp := rfl
  refine ⟨⟨rfl, htake, ?_, rfl, hup, hlo, ?_, hts, ?_⟩, by decide⟩
  · rw [htake, beValue_toUint64BE callId hc]
  · rw [hup, hlo, beValue_toUint64BE _ hdiv, beValue_toUint64BE _ hmod]
    omega
  · rw [hts, beValue_toUint64BE timestamp ht]

/-- Witness for C2 at the spec's example input. -/
theorem buildOutcomeMessage_spec_witness :
    (1 : Nat) < 2 ^ 64 ∧ (105 : Nat) < 2 ^ 128 ∧ (1000001 : Nat) < 2 ^ 64 ∧
    (OutcomeMessageLayout 1 true 105 1000001
        (buildOutcomeMessage 1 true 105 1000001) ∧
      buildOutcomeMessage 1 true 105 1000001 =
        [0, 0, 0, 0, 0, 0, 0, 1,
         1,
         0, 0, 0, 0, 0, 0, 0, 0,
         0, 0, 0, 0, 0, 0, 0, 105,
         0, 0, 0, 0, 0, 15, 66, 65]) :=
  ⟨by norm_num, by norm_num, by norm_num,
    buildOutcomeMessage_spec 1 105 1000001 true (by norm_num) (by norm_num)
      (by norm_num)⟩

/-! ## Payout -/

/--
C1: the spec requires a zero-pool guard - when the user is on the
winning side and the winning pool is 0, calculatePayout must return the
stake and never divide by zero.  The source has no such guard: it
evaluates userStake + (userStake * losingTokens) / winningTokens with
winningTokens = 0n, and BigInt division by 0n raises a RangeError
(modelled as none).  At stake 100, userSide = outcome = true,
longTokens = 0, shortTokens = 500 the call raises instead of returning
100.
-/
theorem calculatePayout_zero_pool_raises :
    calculatePayout 100 true true 0 500 = none ∧
    calculatePayout 100 true true 0 500 ≠ some 100 := by
  constructor <;> decide

/--
C3: calculatePayout returns 0 for the losing side, and for the winning
side with a positive winning pool it returns
stake + floor(stake * losingTotal / winningTotal) in exact integer
arithmetic (floor division stated as Euclidean division by a positive
divisor).
-/
theorem calculatePayout_formula (stake long short : Int)
    (userSide outcome : Bool) (hs : 0 ≤ stake) (hl : 0 ≤ long)
    (hsh : 0 ≤ short) :
    (userSide ≠ outcome →
      calculatePayout stake userSide outcome long short = some 0) ∧
    (userSide = outcome → 0 < (if outcome then long else short) →
      calculatePayout stake userSide outcome long short
        = some (stake +
            stake * (if outcome then short else long)
              / (if outcome then long else short))) := by
  constructor
  · intro h
    simp [calculatePayout, bne_iff_ne, h]
  · intro heq hpos
    subst heq
    cases userSide
    · have hposs : 0 < short := by simpa using hpos
      have h1 : Int.tdiv (stake * long) short = stake * long / short :=
        Int.tdiv_eq_ediv (mul_nonneg hs hl) (le_of_lt hposs)
      have hne : ¬ (short = 0) := by omega
      simp [calculatePayout, hne, h1]
    · have hposl : 0 < long := by simpa using hpos
      have h1 : Int.tdiv (stake * short) long = stake * short / long :=
        Int.tdiv_eq_ediv (mul_nonneg hs hsh) (le_of_lt hposl)
      have hne : ¬ (long = 0) := by omega
      simp [calculatePayout, hne, h1]

/--
Witness for C3 at the spec's examples: stake 100, long pool 1000, short
pool 500 gives payout 150 for the winning long side and 0 for the
losing short side.
-/
theorem calculatePayout_formula_witness :
    calculatePayout 100 true true 1000 500 = some 150 ∧
    calculatePayout 100 false true 1000 500 = some 0 := by
  have h := calculatePayout_formula 100 1000 500 true true (by norm_num)
    (by norm_num) (by norm_num)
  have h2 := calculatePayout_formula 100 1000 500 false true (by norm_num)
    (by norm_num) (by norm_num)
  refine ⟨?_, h2.1 (by decide)⟩
  rw [h.2 rfl (by norm_num)]
  norm_num

/-! ## Signature verification -/

/--
C7: verifyOutcomeSignature never raises - it is a total boolean
function; it returns true exactly when the signature is 64 bytes, the
key is 32 bytes and the detached signature is valid, and it returns
false on every failure, in particular whenever the signature or key has
the wrong length.
-/
theorem verifyOutcomeSignature_total
    (ed25519Valid : List Nat → List Nat → List Nat → Bool)
    (message signature publicKey : List Nat) :
    (verifyOutcomeSignature ed25519Valid message signature publicKey = true ↔
      (signature.length = 64 ∧ publicKey.length = 32 ∧
        ed25519Valid message signature publicKey = true)) ∧
    (sodiumVerifyDetached ed25519Valid message signature publicKey = .thrown →
      verifyOutcomeSignature ed25519Valid message signature publicKey = false) ∧
    (signature.length ≠ 64 ∨ publicKey.length ≠ 32 →
      verifyOutcomeSignature ed25519Valid message signature publicKey
        = false) := by
  refine ⟨?_, ?_, ?_⟩
  · constructor
    · intro h
      by_cases hlen : signature.length = 64 ∧ publicKey.length = 32
      · refine ⟨hlen.1, hlen.2, ?_⟩
        simpa [verifyOutcomeSignature, sodiumVerifyDetached, hlen] using h
      · simp [verifyOutcomeSignature, sodiumVerifyDetached, hlen] at h
    · rintro ⟨h1, h2, h3⟩
      simp [verifyOutcomeSignature, sodiumVerifyDetached, h1, h2, h3]
  · intro h
    simp [verifyOutcomeSignature, h]
  · intro h
    have hlen : ¬ (signature.length = 64 ∧ publicKey.length = 32) := by
      rcases h with h | h <;> intro hc <;> exact h (by omega)
    simp [verifyOutcomeSignature, sodiumVerifyDetached, hlen]

/--
Witness for C7: an always-valid abstract verifier on a well-formed
64-byte signature and 32-byte key yields true, and the same inputs with
a 63-byte signature yield false.
-/
theorem verifyOutcomeSignature_total_witness :
    verifyOutcomeSignature (fun _ _ _ => true) (List.replicate 33 0)
      (List.replicate 64 0) (List.replicate 32 0) = true ∧
    verifyOutcomeSignature (fun _ _ _ => true) (List.replicate 33 0)
      (List.replicate 63 0) (List.replicate 32 0) = false := by
  constructor
  · exact ((verifyOutcomeSignature_total (fun _ _ _ => true)
      (List.replicate 33 0) (List.replicate 64 0)
      (List.replicate 32 0)).1).2 ⟨by simp, by simp, rfl⟩
  · exact (verifyOutcomeSignature_total (fun _ _ _ => true)
      (List.replicate 33 0) (List.replicate 63 0)
      (List.replicate 32 0)).2.2 (Or.inl (by simp))

/-! ## Polling-cycle helper lemmas -/

/-- One successful head fetch with new ledgers: the contracts are
processed and the cursor jumps to head + 1. -/
theorem fetchAndProcessEvents_advance (cfg : StellarIndexerConfig)
    (env : RpcEnv) (s : IndexerState) (rc head : Nat)
    (hh : env.heads rc = some head) (hle : s.currentLedger ≤ head) :
    fetchAndProcessEvents cfg env s rc =
      { state :=
          { s with
            currentLedger := head + 1
            db := cfg.contractIds.foldl
              (fun db cid =>
                fetchContractEvents env cid s.currentLedger head db)
              s.db }
        attempts := rc + 1
        delays := [] } := by
  rw [fetchAndProcessEvents, hh]
  simp [Nat.not_lt.mpr hle]

/-- A failed head fetch below the retry bound: one delay, then the next
attempt. -/
theorem fetchAndProcessEvents_retryStep (cfg : StellarIndexerConfig)
    (env : RpcEnv) (s : IndexerState) (rc : Nat)
    (hh : env.heads rc = none) (hlt : rc < cfg.maxRetries) :
    fetchAndProcessEvents cfg env s rc =
      { fetchAndProcessEvents cfg env s (rc + 1) with
        delays := cfg.retryDelayMs
          :: (fetchAndProcessEvents cfg env s (rc + 1)).delays } := by
  rw [fetchAndProcessEvents, hh]
  simp [hlt]

/-- A failed head fetch at the retry bound: the cycle is abandoned with
the state untouched. -/
theorem fetchAndProcessEvents_abandon (cfg : StellarIndexerConfig)
    (env : RpcEnv) (s : IndexerState) (rc : Nat)
    (hh : env.heads rc = none) (hge : ¬ rc < cfg.maxRetries) :
    fetchAndProcessEvents cfg env s rc =
      { state := s, attempts := rc + 1, delays := [] } := by
  rw [fetchAndProcessEvents, hh]
  simp [hge]

/-- When every remaining head fetch fails, the cycle performs all
remaining attempts, waits once before each retry, and returns the state
unchanged. -/
theorem fetchAndProcessEvents_allFail (cfg : StellarIndexerConfig)
    (env : RpcEnv) (s : IndexerState) :
    ∀ n rc, cfg.maxRetries - rc = n → rc ≤ cfg.maxRetries →
    (∀ k, rc ≤ k → k ≤ cfg.maxRetries → env.heads k = none) →
    fetchAndProcessEvents cfg env s rc =
      { state := s, attempts := cfg.maxRetries + 1,
        delays := List.replicate n cfg.retryDelayMs } := by
  intro n
  induction n with
  | zero =>
    intro rc h0 hrc hfail
    have heq : rc = cfg.maxRetries := by omega
    subst heq
    rw [fetchAndProcessEvents_abandon cfg env s _ (hfail _ le_rfl le_rfl)
      (by omega)]
    simp
  | succ m ih =>
    intro rc hm hrc hfail
    have hlt : rc < cfg.maxRetries := by omega
    rw [fetchAndProcessEvents_retryStep cfg env s rc
      (hfail _ le_rfl (by omega)) hlt]
    rw [ih (rc + 1) (by omega) (by omega)
      (fun k hk1 hk2 => hfail k (by omega) hk2)]
    simp [List.replicate_succ]

/-- Failed attempts before a success do not change the resulting state:
the cycle at attempt rc ends in the same state as the cycle started at
the first successful attempt. -/
theorem fetchAndProcessEvents_state_skip (cfg : StellarIndexerConfig)
    (env : RpcEnv) (s : IndexerState) :
    ∀ j rc, rc + j ≤ cfg.maxRetries →
    (∀ k, rc ≤ k → k < rc + j → env.heads k = none) →
    (fetchAndProcessEvents cfg env s rc).state
      = (fetchAndProcessEvents cfg env s (rc + j)).state := by
  intro j
  induction j with
  | zero => intro rc _ _; rfl
  | succ m ih =>
    intro rc hle hfail
    have h0 : env.heads rc = none := hfail rc le_rfl (by omega)
    have hlt : rc < cfg.maxRetries := by omega
    rw [fetchAndProcessEvents_retryStep cfg env s rc h0 hlt]
    have hrec := ih (rc + 1) (by omega)
      (fun k hk1 hk2 => hfail k (by omega) (by omega))
    rw [show rc + (m + 1) = rc + 1 + m by omega]
    exact hrec

/-! ## C4 -/

/--
C4 counterexample: head fetch succeeds at ledger 10 with cursor 5, but
getEvents for the monitored contract throws; the claim says the cursor
must stay at 5, yet the source advances it to 11.
-/
theorem contractFailure_cursor_still_advances :
    exEnvContractFail.events "C" 5 = none ∧
    (fetchAndProcessEvents exCfg exEnvContractFail
      ⟨5, [], true⟩ 0).state.currentLedger = 11 ∧
    (fetchAndProcessEvents exCfg exEnvContractFail
      ⟨5, [], true⟩ 0).state.currentLedger ≠ 5 := by
  refine ⟨rfl, ?_, ?_⟩ <;>
    rw [fetchAndProcessEvents] <;> simp [exEnvContractFail, exCfg]

/--
C4 amended: the cursor advances to head + 1 whenever the head fetch of
the cycle succeeds and there are new ledgers, regardless of any
per-contract fetch, decode or store failure (fetchContractEvents
catches all of them); the cursor is left unchanged when the head fetch
itself fails on every attempt.
-/
theorem cursor_advance_not_gated_on_store :
    (∀ (cfg : StellarIndexerConfig) (env : RpcEnv) (s : IndexerState)
      (head : Nat), env.heads 0 = some head → s.currentLedger ≤ head →
      (fetchAndProcessEvents cfg env s 0).state.currentLedger = head + 1) ∧
    (∀ (cfg : StellarIndexerConfig) (env : RpcEnv) (s : IndexerState),
      (∀ k, k ≤ cfg.maxRetries → env.heads k = none) →
      (fetchAndProcessEvents cfg env s 0).state = s) := by
  constructor
  · intro cfg env s head hh hle
    rw [fetchAndProcessEvents_advance cfg env s 0 head hh hle]
  · intro cfg env s hfail
    rw [fetchAndProcessEvents_allFail cfg env s cfg.maxRetries 0 (by omega)
      (by omega) (fun k _ hk => hfail k hk)]

/-- Witness for the amended C4. -/
theorem cursor_advance_not_gated_on_store_witness :
    (fetchAndProcessEvents exCfg exEnvContractFail
      ⟨5, [], true⟩ 0).state.currentLedger = 11 ∧
    (fetchAndProcessEvents exCfg exEnvAllFail ⟨5, [], true⟩ 0).state
      = ⟨5, [], true⟩ :=
  ⟨cursor_advance_not_gated_on_store.1 exCfg exEnvContractFail
      ⟨5, [], true⟩ 10 rfl (by norm_num),
    cursor_advance_not_gated_on_store.2 exCfg exEnvAllFail ⟨5, [], true⟩
      (fun k _ => rfl)⟩

/-! ## C6 -/

/--
C6: when the head fetch fails maxRetries + 1 consecutive times the
cycle performs exactly maxRetries + 1 attempts (hence exactly
maxRetries retries), awaits the fixed retryDelayMs once before each
retry, then abandons without raising and leaves the state (cursor and
store) unchanged; if any attempt up to and including the last retry
succeeds with new ledgers, the cycle proceeds and advances the cursor;
the initializer defaults are maxRetries 3 and retryDelayMs 5000.
-/
theorem retry_bound_fixed_delay :
    (∀ (cfg : StellarIndexerConfig) (env : RpcEnv) (s : IndexerState),
      (∀ k, k ≤ cfg.maxRetries → env.heads k = none) →
      (fetchAndProcessEvents cfg env s 0).attempts = cfg.maxRetries + 1 ∧
      (fetchAndProcessEvents cfg env s 0).delays
        = List.replicate cfg.maxRetries cfg.retryDelayMs ∧
      (fetchAndProcessEvents cfg env s 0).state = s) ∧
    (∀ (cfg : StellarIndexerConfig) (env : RpcEnv) (s : IndexerState)
      (j head : Nat), j ≤ cfg.maxRetries →
      (∀ k, k < j → env.heads k = none) → env.heads j = some head →
      s.currentLedger ≤ head →
      (fetchAndProcessEvents cfg env s 0).state.currentLedger = head + 1) ∧
    (∀ cin : ConfigInput, cin.maxRetries = none →
      (initializeConfig cin).maxRetries = 3) ∧
    (∀ cin : ConfigInput, cin.retryDelayMs = none →
      (initializeConfig cin).retryDelayMs = 5000) := by
  refine ⟨?_, ?_, ?_, ?_⟩
  · intro cfg env s hfail
    rw [fetchAndProcessEvents_allFail cfg env s cfg.maxRetries 0 (by omega)
      (by omega) (fun k _ hk => hfail k hk)]
    exact ⟨rfl, by simp, rfl⟩
  · intro cfg env s j head hj hfail hhead hle
    have hskip := fetchAndProcessEvents_state_skip cfg env s j 0 (by omega)
      (fun k _ hk => hfail k (by omega))
    rw [hskip, show 0 + j = j by omega,
      fetchAndProcessEvents_advance cfg env s j head hhead hle]
  · intro cin h
    simp [initializeConfig, h]
  · intro cin h
    simp [initializeConfig, h]

/-- Witness for C6: with the default bounds and every head fetch
failing, 4 attempts, 3 fixed delays of 5000 ms, state unchanged; with a
success on the third attempt the cursor advances to 11; the defaults
resolve to 3 and 5000. -/
theorem retry_bound_fixed_delay_witness :
    ((fetchAndProcessEvents exCfg exEnvAllFail ⟨5, [], true⟩ 0).attempts = 4 ∧
      (fetchAndProcessEvents exCfg exEnvAllFail ⟨5, [], true⟩ 0).delays
        = List.replicate 3 5000 ∧
      (fetchAndProcessEvents exCfg exEnvAllFail ⟨5, [], true⟩ 0).state
        = ⟨5, [], true⟩) ∧
    (fetchAndProcessEvents exCfg exEnvThirdTry
      ⟨5, [], true⟩ 0).state.currentLedger = 11 ∧
    (initializeConfig { rpcUrl := "http://rpc", contractIds := ["C"] }).maxRetries
      = 3 ∧
    (initializeConfig { rpcUrl := "http://rpc", contractIds := ["C"] }).retryDelayMs
      = 5000 :=
  ⟨retry_bound_fixed_delay.1 exCfg exEnvAllFail ⟨5, [], true⟩
      (fun k _ => rfl),
    retry_bound_fixed_delay.2.1 exCfg exEnvThirdTry ⟨5, [], true⟩ 2 10
      (by norm_num [exCfg])
      (fun k hk => by simp [exEnvThirdTry, hk])
      (by simp [exEnvThirdTry]) (by norm_num),
    retry_bound_fixed_delay.2.2.1 _ rfl,
    retry_bound_fixed_delay.2.2.2 _ rfl⟩

/-! ## C8 -/

/--
C8: an event whose decode throws is skipped and the remaining events of
the batch are processed exactly as if the bad event were absent - the
batch and the cycle are never aborted; likewise a store failure of one
event only skips that event.
-/
theorem undecodable_event_skipped :
    (∀ (env : RpcEnv) (cid : String) (sl el : Nat) (db : List StoredCall)
      (raws1 : List Nat) (bad : Nat) (raws2 : List Nat),
      env.events cid sl = some (raws1 ++ bad :: raws2) →
      env.parse bad = none →
      fetchContractEvents env cid sl el db
        = (raws1 ++ raws2).foldl (processOneEvent env) db) ∧
    (∀ (env : RpcEnv) (db : List StoredCall) (bad : Nat)
      (pe : ParsedSorobanEvent), env.parse bad = some pe →
      hasKey db pe.txHash pe.sequence = false → env.saveOk pe = false →
      processOneEvent env db bad = db) := by
  constructor
  · intro env cid sl el db raws1 bad raws2 hev hbad
    simp [fetchContractEvents, hev, List.foldl_append, processOneEvent, hbad]
  · intro env db bad pe hp hk hsv
    simp [processOneEvent, hp, storeEventSave, hk, hsv]

/-- Witness for C8: a batch of three raw events whose middle event
fails to decode stores exactly the two decodable ones. -/
theorem undecodable_event_skipped_witness :
    fetchContractEvents exEnvBadMiddle "C" 5 10 []
      = ([0, 2] : List Nat).foldl (processOneEvent exEnvBadMiddle) [] ∧
    processOneEvent exEnvSaveFail [] 0 = [] :=
  ⟨undecodable_event_skipped.1 exEnvBadMiddle "C" 5 10 [] [0] 1 [2]
      rfl (by simp [exEnvBadMiddle]),
    undecodable_event_skipped.2 exEnvSaveFail [] 0 exEvent rfl rfl rfl⟩

/-! ## C5 -/

/-- The row created from an event carries that event's dedup key. -/
theorem keyMatches_mkCall (e : ParsedSorobanEvent) :
    keyMatches e.txHash e.sequence (mkCall e) = true := by
  simp [keyMatches, mkCall]

/-- Appending the created row makes the key present. -/
theorem hasKey_append_mkCall (db : List StoredCall)
    (e : ParsedSorobanEvent) :
    hasKey (db ++ [mkCall e]) e.txHash e.sequence = true := by
  simp [hasKey, keyMatches_mkCall]

/-- A positive key count means the findOne check sees the key. -/
theorem hasKey_of_countKey_pos (db : List StoredCall) (txHash : String)
    (seq : Nat) (h : 0 < countKey db txHash seq) :
    hasKey db txHash seq = true := by
  obtain ⟨c, hc, hm⟩ := List.countP_pos_iff.mp h
  simp only [hasKey, List.any_eq_true]
  exact ⟨c, hc, hm⟩

/--
C5: storing an event whose dedup key (chain, txHash, sequence) is
already present is a successful no-op that leaves the store unchanged,
storeEvent is idempotent, and ingesting the identical event any number
of times n >= 1 starting from an empty store leaves exactly one row
with that key.
-/
theorem storeEvent_dedup_idempotent :
    (∀ (db : List StoredCall) (e : ParsedSorobanEvent),
      hasKey db e.txHash e.sequence = true → storeEvent db e = db) ∧
    (∀ (db : List StoredCall) (e : ParsedSorobanEvent),
      storeEvent (storeEvent db e) e = storeEvent db e) ∧
    (∀ (e : ParsedSorobanEvent) (n : Nat), 1 ≤ n →
      countKey ((fun db => storeEvent db e)^[n] []) e.txHash e.sequence
        = 1) := by
  have hnoop : ∀ (db : List StoredCall) (e : ParsedSorobanEvent),
      hasKey db e.txHash e.sequence = true → storeEvent db e = db := by
    intro db e h
    simp [storeEvent, h]
  refine ⟨hnoop, ?_, ?_⟩
  · intro db e
    by_cases h : hasKey db e.txHash e.sequence = true
    · rw [hnoop db e h, hnoop db e h]
    · have hfalse : hasKey db e.txHash e.sequence = false :=
        Bool.not_eq_true _ ▸ eq_false_of_ne_true h
      have hgrow : storeEvent db e = db ++ [mkCall e] := by
        simp [storeEvent, hfalse]
      rw [hgrow]
      exact hnoop _ e (hasKey_append_mkCall db e)
  · intro e n hn
    induction n with
    | zero => omega
    | succ m ih =>
      rcases Nat.lt_or_ge m 1 with hm | hm
      · have hm0 : m = 0 := by omega
        subst hm0
        simp [storeEvent, hasKey, countKey, keyMatches_mkCall]
      · have hcount := ih hm
        rw [Function.iterate_succ_apply']
        rw [hnoop _ e (hasKey_of_countKey_pos _ _ _ (by omega))]
        exact hcount

/-- Witness for C5: one concrete event stored three times from the
empty store leaves one matching row, and re-storing is a no-op. -/
theorem storeEvent_dedup_idempotent_witness :
    storeEvent (storeEvent [] exEvent) exEvent = storeEvent [] exEvent ∧
    countKey ((fun db => storeEvent db exEvent)^[3] [])
      exEvent.txHash exEvent.sequence = 1 :=
  ⟨storeEvent_dedup_idempotent.2.1 [] exEvent,
    storeEvent_dedup_idempotent.2.2 exEvent 3 (by norm_num)⟩

/-! ## C9 -/

/--
C9 counterexample: with the indexer stopped (isRunning = false, as
stop() leaves it), a cycle that was already in flight still stores its
event and advances the cursor from 5 to 11 when it resolves - the
claimed "no state mutation" fails.
-/
theorem stop_does_not_discard_inflight :
    (stop ⟨5, [], true⟩).isRunning = false ∧
    (fetchAndProcessEvents exCfg exEnvOk (stop ⟨5, [], true⟩) 0).state.db
      = [mkCall exEvent] ∧
    (fetchAndProcessEvents exCfg exEnvOk (stop ⟨5, [], true⟩) 0).state.db
      ≠ [] ∧
    (fetchAndProcessEvents exCfg exEnvOk
      (stop ⟨5, [], true⟩) 0).state.currentLedger = 11 := by
  have hdb : (fetchAndProcessEvents exCfg exEnvOk
      (stop ⟨5, [], true⟩) 0).state.db = [mkCall exEvent] := by
    rw [fetchAndProcessEvents]
    simp [exEnvOk, exCfg, stop, fetchContractEvents, processOneEvent,
      storeEventSave, hasKey, exEvent]
  refine ⟨rfl, hdb, ?_, ?_⟩
  · rw [hdb]
    simp
  · rw [fetchAndProcessEvents]
    simp [exEnvOk, exCfg, stop]

/--
C9 amended: stop() clears isRunning (and cancels the schedule), and a
tick that begins after stop() is a no-op because the interval callback
checks isRunning; but a fetch already in flight is not discarded:
fetchAndProcessEvents never consults isRunning, so on a stopped state
whose head fetch succeeds with new ledgers it still advances the cursor
and stores the fetched events.
-/
theorem stop_amended :
    (∀ s, (stop s).isRunning = false) ∧
    (∀ (cfg : StellarIndexerConfig) (env : RpcEnv) (s : IndexerState),
      s.isRunning = false → pollTick cfg env s = s) ∧
    (∀ (cfg : StellarIndexerConfig) (env : RpcEnv) (s : IndexerState)
      (head : Nat), s.isRunning = false → env.heads 0 = some head →
      s.currentLedger ≤ head →
      (fetchAndProcessEvents cfg env s 0).state.currentLedger = head + 1 ∧
      (fetchAndProcessEvents cfg env s 0).state.db
        = cfg.contractIds.foldl
            (fun db cid =>
              fetchContractEvents env cid s.currentLedger head db)
            s.db) := by
  refine ⟨?_, ?_, ?_⟩
  · intro s
    by_cases h : s.isRunning <;> simp [stop, h]
  · intro cfg env s h
    simp [pollTick, h]
  · intro cfg env s head hrun hh hle
    rw [fetchAndProcessEvents_advance cfg env s 0 head hh hle]
    exact ⟨rfl, rfl⟩

/-- Witness for the amended C9. -/
theorem stop_amended_witness :
    (stop ⟨5, [], true⟩).isRunning = false ∧
    pollTick exCfg exEnvOk ⟨5, [mkCall exEvent], false⟩
      = ⟨5, [mkCall exEvent], false⟩ ∧
    (fetchAndProcessEvents exCfg exEnvOk
      ⟨5, [], false⟩ 0).state.currentLedger = 11 :=
  ⟨stop_amended.1 ⟨5, [], true⟩,
    stop_amended.2.1 exCfg exEnvOk ⟨5, [mkCall exEvent], false⟩ rfl,
    (stop_amended.2.2 exCfg exEnvOk ⟨5, [], false⟩ 10 rfl rfl
      (by norm_num)).1⟩

/-! ## C10 -/

/--
C10: decodeScVal is total over every ScVal tag; every tag outside the
supported set - 128-bit integers, plain strings, and any other tag -
reaches the default branch and yields null rather than raising or
passing the raw value through.
-/
theorem decodeScVal_default_null :
    (∀ v : ScVal, supportedScTag v = false →
      decodeScVal v = DecodedVal.null) ∧
    (∀ hi lo, decodeScVal (ScVal.u128 hi lo) = DecodedVal.null) ∧
    (∀ hi lo, decodeScVal (ScVal.i128 hi lo) = DecodedVal.null) ∧
    (∀ s, decodeScVal (ScVal.string s) = DecodedVal.null) ∧
    (∀ t, decodeScVal (ScVal.other t) = DecodedVal.null) := by
  refine ⟨?_, fun hi lo => rfl, fun hi lo => rfl, fun s => rfl,
    fun t => rfl⟩
  intro v hv
  cases v <;> first
    | rfl
    | (exfalso; simp [supportedScTag] at hv)

/-- Witness for C10 at a 128-bit integer value. -/
theorem decodeScVal_default_null_witness :
    supportedScTag (ScVal.u128 1 2) = false ∧
    decodeScVal (ScVal.u128 1 2) = DecodedVal.null :=
  ⟨rfl, decodeScVal_default_null.1 (ScVal.u128 1 2) rfl⟩
